import Mathlib

/-!
# Access-control core of trackle-backend

A shallow embedding of `middleware/ratelimit.go` (the sliding-window limiter)
and `controllers/auth.go` (Register, Login, GoogleOAuth) over the record types
of `models/user.go`, followed by the properties proved about them.

Conventions of the embedding:

* a Go `string` is its sequence of bytes (`GoString`), because the source
  slices strings by byte offset (`req.GoogleID[:8]`);
* a `time.Time` is an integer count of nanoseconds and a `time.Duration` an
  integer number of nanoseconds; the clock reading `time.Now()` is an explicit
  argument of `allow`;
* a Go `map` is a function from keys to optional values;
* the relational store is the list of rows of each table; a handler takes the
  store and returns the store after the request together with what it wrote to
  the HTTP response;
* a handler starts after `ShouldBindJSON` accepted the request; queries read
  the store without error, and an I/O error of an insert is an explicit
  argument of the handler;
* package `utils` (`TrimAndLower`, `GenerateJWT`, the error constructors,
  `TransactionManager`) and `bcrypt` are not among the sources: the functions
  are parameters gathered in `Env`, the error values and the transaction
  follow the specification.
-/

namespace Trackle

/-! ## Go strings -/

/-- A Go string: a sequence of bytes. -/
abbrev GoString := List Nat

/-- UTF-8 encoding of one code point. -/
def utf8 (c : Nat) : List Nat :=
  if c < 128 then [c]
  else if c < 2048 then [192 + c / 64, 128 + c % 64]
  else if c < 65536 then [224 + c / 4096, 128 + (c / 64) % 64, 128 + c % 64]
  else [240 + c / 262144, 128 + (c / 4096) % 64, 128 + (c / 64) % 64, 128 + c % 64]

/-- The Go string written as the literal `s` (Go source is UTF-8). -/
def str (s : String) : GoString := s.data.flatMap (fun c => utf8 c.toNat)

/-! ## middleware/ratelimit.go -/

/-- A `time.Time`, in nanoseconds. -/
abbrev Time := Int

/-- A `time.Duration`, in nanoseconds. -/
abbrev Duration := Int

/-- The constant `time.Second`. -/
def Second : Duration := 1000000000

/-- The constant `time.Minute`. -/
def Minute : Duration := 60 * Second

/-- The struct `rateLimiter` (the mutex is not modelled: `allow` holds it for
its whole body, so calls are atomic steps). -/
structure rateLimiter where
  requests : GoString → Option (List Time)
  limit : Int
  window : Duration

/-- Go `newRateLimiter`. -/
def newRateLimiter (limit : Int) (window : Duration) : rateLimiter :=
  { requests := fun _ => none, limit := limit, window := window }

/-- Reading `rl.requests[clientIP]`: the zero value (nil slice) when the key is absent. -/
def rateLimiter.get (rl : rateLimiter) (clientIP : GoString) : List Time :=
  (rl.requests clientIP).getD []

/-- Writing `rl.requests[clientIP] = v`. -/
def rateLimiter.set (rl : rateLimiter) (clientIP : GoString) (v : List Time) : rateLimiter :=
  { rl with requests := fun k => if k = clientIP then some v else rl.requests k }

/-- The loop of `allow` (lines 35-40): `validRequests` starts nil and every
`reqTime` with `reqTime.After(cutoff)` is appended to it. -/
def validRequests (requests : List Time) (cutoff : Time) : List Time :=
  requests.foldl (fun valid reqTime => if reqTime > cutoff then valid ++ [reqTime] else valid) []

/-- The cleaning step of `allow` (lines 31-42). -/
def rateLimiter.clean (rl : rateLimiter) (clientIP : GoString) (now : Time) : rateLimiter :=
  let cutoff := now + (-rl.window)
  match rl.requests clientIP with
  | some requests => rl.set clientIP (validRequests requests cutoff)
  | none => rl

/-- Go `(*rateLimiter).allow`, with the reading of `time.Now()` as argument
`now`; returns the result and the limiter afterwards. -/
def rateLimiter.allow (rl : rateLimiter) (clientIP : GoString) (now : Time) : Bool × rateLimiter :=
  let rl1 := rl.clean clientIP now
  if ((rl1.get clientIP).length : Int) ≥ rl1.limit then
    (false, rl1)
  else
    (true, rl1.set clientIP (rl1.get clientIP ++ [now]))

/-- The timestamps of the key's sequence that are after the cutoff `now - window`, in order. -/
def pruned (rl : rateLimiter) (k : GoString) (now : Time) : List Time :=
  (rl.get k).filter (fun t => decide (now - rl.window < t))

/-- A sequence of `allow` calls, each a client key and the clock reading of the
call: the results in order and the limiter afterwards. -/
def runCalls (rl : rateLimiter) : List (GoString × Time) → List Bool × rateLimiter
  | [] => ([], rl)
  | c :: cs =>
    let r := rl.allow c.1 c.2
    let rs := runCalls r.2 cs
    (r.1 :: rs.1, rs.2)

/-- The instants of the calls on `key` that returned true. -/
def admitted (key : GoString) (calls : List (GoString × Time)) (results : List Bool) : List Time :=
  ((calls.zip results).filter (fun cr => decide (cr.1.1 = key) && cr.2)).map (fun cr => cr.1.2)

/-- How many instants of `ts` lie in the closed trailing window `[t - window, t]`. -/
def countClosed (window : Duration) (t : Time) (ts : List Time) : Nat :=
  ts.countP (fun a => decide (t - window ≤ a) && decide (a ≤ t))

/-- How many instants of `ts` lie in the half-open trailing window `(t - window, t]`. -/
def countWithin (window : Duration) (t : Time) (ts : List Time) : Nat :=
  ts.countP (fun a => decide (t - window < a) && decide (a ≤ t))

/-- The StrictRateLimitMiddleware limiter: `newRateLimiter(10, time.Minute)`. -/
def strictLimiter : rateLimiter := newRateLimiter 10 Minute

/-- The RateLimitMiddleware limiter: `newRateLimiter(1000, time.Minute)`. -/
def defaultLimiter : rateLimiter := newRateLimiter 1000 Minute

/-! ## models/user.go -/

/-- The model `ProfileUser`; of the embedded `gorm.Model` only the primary key
`ID` is kept (the repository has no update or delete path for these rows). -/
structure ProfileUser where
  ID : Nat
  Username : GoString
  Email : GoString
  Name : GoString
  Role : GoString
  GoogleID : Option GoString
  PasswordLess : Bool
deriving DecidableEq, Repr

/-- The model `AuthUser`. -/
structure AuthUser where
  ID : Nat
  UserID : Nat
  Password : GoString
deriving DecidableEq, Repr

/-! ## The relational store behind `*gorm.DB` -/

/-- The two tables migrated by `MigrateDB` that the handlers touch, each with
the last value handed out by its primary-key sequence. -/
structure DB where
  profiles : List ProfileUser
  auths : List AuthUser
  profileSeq : Nat
  authSeq : Nat
deriving DecidableEq, Repr

/-- The store after migration, before any request. -/
def emptyDB : DB := { profiles := [], auths := [], profileSeq := 0, authSeq := 0 }

/-- The row with the least primary key (the earliest one among equals): what
`ORDER BY id LIMIT 1` selects. -/
def minRow {α : Type} (id : α → Nat) : List α → Option α
  | [] => none
  | r :: rs =>
    match minRow id rs with
    | none => some r
    | some b => if id b < id r then some b else some r

/-- The query `db.Where(cond).First(&profile)` on `profile_users`: the matching
row with the least ID, or none (gorm.ErrRecordNotFound). -/
def DB.firstProfile (db : DB) (cond : ProfileUser → Bool) : Option ProfileUser :=
  minRow (fun p => p.ID) (db.profiles.filter cond)

/-- The query `db.Where(cond).First(&authUser)` on `auth_users`. -/
def DB.firstAuth (db : DB) (cond : AuthUser → Bool) : Option AuthUser :=
  minRow (fun a => a.ID) (db.auths.filter cond)

/-- The statement `db.Create(&profileUser)` for a row whose ID is zero: the
sequence hands out the next ID, and the insert fails on an I/O error
(`ioError`) or when it violates the primary key or one of the `unique`
constraints of the model (Username, Email, GoogleID when not NULL). A failed
insert still consumes the sequence value. Returns the row as written. -/
def DB.createProfile (db : DB) (ioError : Bool) (row : ProfileUser) : DB × Option ProfileUser :=
  let id := db.profileSeq + 1
  let written := { row with ID := id }
  if ioError || db.profiles.any (fun p =>
      decide (p.ID = id) || decide (p.Username = row.Username) || decide (p.Email = row.Email)
        || (row.GoogleID.isSome && decide (p.GoogleID = row.GoogleID))) then
    ({ db with profileSeq := id }, none)
  else
    ({ db with profileSeq := id, profiles := db.profiles ++ [written] }, some written)

/-- The statement `tx.Create(&authUser)`: as `createProfile`, with the `unique`
constraint of `AuthUser.UserID`. -/
def DB.createAuth (db : DB) (ioError : Bool) (row : AuthUser) : DB × Option AuthUser :=
  let id := db.authSeq + 1
  let written := { row with ID := id }
  if ioError || db.auths.any (fun a => decide (a.ID = id) || decide (a.UserID = row.UserID)) then
    ({ db with authSeq := id }, none)
  else
    ({ db with authSeq := id, auths := db.auths ++ [written] }, some written)

/-! ## Package `utils` and the libraries the handlers call -/

/-- Modelled from the spec: the error taxonomy of §7, built by the constructors
`utils.NewValidationError`, `NewDuplicateEntryError`, `NewAuthenticationError`,
`NewNotFoundError`, `NewInternalError` and `NewDatabaseError`, which are not
among the sources. -/
inductive ErrorKind
  | validation
  | duplicate
  | authentication
  | notFound
  | internal
  | database
deriving DecidableEq, Repr

/-- Modelled from the spec: the value the `utils.New...Error` constructors
return, with the fields the handlers read (`StatusCode`, `Message`). -/
structure AppError where
  Kind : ErrorKind
  StatusCode : Nat
  Message : String
deriving DecidableEq, Repr

/-- What the handlers use from package `utils`, `bcrypt` and the token
library, none of which is among the sources; each is a parameter.
`GenerateJWT`, `GenerateFromPassword` return none for the Go error result. -/
structure Env where
  TrimAndLower : GoString → GoString
  GenerateJWT : Nat → Option GoString
  GenerateFromPassword : GoString → Option GoString
  CompareHashAndPassword : GoString → GoString → Bool
  StatusCode : ErrorKind → Nat

/-- Modelled from the spec: `utils.NewDuplicateEntryError(msg, nil)`. -/
def Env.NewDuplicateEntryError (env : Env) (msg : String) : AppError :=
  { Kind := ErrorKind.duplicate, StatusCode := env.StatusCode ErrorKind.duplicate, Message := msg }

/-- Modelled from the spec: `utils.NewAuthenticationError(msg, nil)`. -/
def Env.NewAuthenticationError (env : Env) (msg : String) : AppError :=
  { Kind := ErrorKind.authentication, StatusCode := env.StatusCode ErrorKind.authentication,
    Message := msg }

/-- Modelled from the spec: `utils.NewInternalError(msg, err)`. -/
def Env.NewInternalError (env : Env) (msg : String) : AppError :=
  { Kind := ErrorKind.internal, StatusCode := env.StatusCode ErrorKind.internal, Message := msg }

/-- Modelled from the spec: `utils.NewDatabaseError(msg, err)`. -/
def Env.NewDatabaseError (env : Env) (msg : String) : AppError :=
  { Kind := ErrorKind.database, StatusCode := env.StatusCode ErrorKind.database, Message := msg }

/-- What a handler wrote to the HTTP response. -/
inductive Response
  /-- Nothing was written. -/
  | silent
  /-- The call `utils.ErrorResponse(c, statusCode, message, err)`; `cause` is the
  application error passed as `err`, none when `err` is a library error. -/
  | error (statusCode : Nat) (message : String) (cause : Option AppError)
  /-- The call `utils.CreatedResponse(c, message, RegisterResponse{user})`. -/
  | created (message : String) (user : ProfileUser)
  /-- The call `utils.SuccessResponse(c, message, data)` with the token and the
  user of `data`. -/
  | success (message : String) (token : GoString) (user : Option ProfileUser)
  /-- The handler ended in a run-time panic. -/
  | panic
deriving DecidableEq, Repr

/-- A handled request: the store afterwards, the response and the
`auth_token` cookie set, if any. -/
structure Result where
  db : DB
  response : Response
  cookie : Option GoString
deriving DecidableEq, Repr

/-- Modelled from the spec: `utils.TransactionManager(db, c, fn)`, absent from
the sources. It runs `fn` as one all-or-nothing unit: when `fn` returns an
error neither write is kept (sequence values already handed out are not given
back) and the error is surfaced; otherwise both writes commit. -/
def TransactionManager {α : Type} (db : DB) (fn : DB → DB × Except AppError α) :
    DB × Except AppError α :=
  match fn db with
  | (tx, Except.ok a) => (tx, Except.ok a)
  | (tx, Except.error e) =>
    ({ db with profileSeq := tx.profileSeq, authSeq := tx.authSeq }, Except.error e)

/-! ## controllers/auth.go -/

/-- The struct `RegisterRequest`. -/
structure RegisterRequest where
  Username : GoString
  FullName : GoString
  Email : GoString
  Password : GoString
  Role : GoString
deriving DecidableEq, Repr

/-- The struct `LoginRequest`. -/
structure LoginRequest where
  Email : GoString
  Password : GoString
deriving DecidableEq, Repr

/-- The struct `GoogleOAuthRequest`. -/
structure GoogleOAuthRequest where
  Email : GoString
  Username : GoString
  GoogleID : GoString
  Name : GoString
  Picture : GoString
deriving DecidableEq, Repr

/-- The I/O errors the storage layer raises on the two inserts of a request. -/
structure Faults where
  profile : Bool
  auth : Bool
deriving DecidableEq, Repr

/-- No I/O error. -/
def noFaults : Faults := { profile := false, auth := false }

/-- The message of an email conflict (Register, line 85). -/
def emailConflictMsg : String := "This email is already registered. Please use a different email."

/-- The message of a username conflict (Register, line 87). -/
def usernameConflictMsg : String :=
  "This username is already taken. Please choose another username."

/-- The message of any other conflict (Register, line 89). -/
def accountConflictMsg : String := "An account with these details already exists."

/-- Lines 73-90 of Register: the conflict message for the row found. -/
def conflictMessage (env : Env) (existingProfile : ProfileUser) (req : RegisterRequest) : String :=
  let conflictField : String :=
    if existingProfile.Email = env.TrimAndLower req.Email then "email"
    else if existingProfile.Username = req.Username then "username"
    else "account"
  if conflictField = "email" then emailConflictMsg
  else if conflictField = "username" then usernameConflictMsg
  else accountConflictMsg

/-- Lines 91-93 of Register: the duplicate-entry error with the message chosen. -/
def duplicateEntry (env : Env) (db : DB) (userMsg : String) : Result :=
  let appErr := env.NewDuplicateEntryError userMsg
  { db := db, response := Response.error appErr.StatusCode appErr.Message (some appErr),
    cookie := none }

/-- The function passed to `utils.TransactionManager` by Register (lines 113-126). -/
def registerTx (env : Env) (faults : Faults) (profileUser : ProfileUser)
    (hashedPassword : GoString) (tx : DB) : DB × Except AppError ProfileUser :=
  match tx.createProfile faults.profile profileUser with
  | (tx1, none) => (tx1, Except.error (env.NewDatabaseError "Failed to create profile user"))
  | (tx1, some profileUser) =>
    let authUser : AuthUser := { ID := 0, UserID := profileUser.ID, Password := hashedPassword }
    match tx1.createAuth faults.auth authUser with
    | (tx2, none) => (tx2, Except.error (env.NewDatabaseError "Failed to create auth user"))
    | (tx2, some _) => (tx2, Except.ok profileUser)

/-- The handler `Register`, for a request that `ShouldBindJSON` accepted. -/
def Register (env : Env) (faults : Faults) (db : DB) (req : RegisterRequest) : Result :=
  let role := if req.Role = [] then str "user" else req.Role
  match db.firstProfile (fun p =>
      decide (p.Email = env.TrimAndLower req.Email) || decide (p.Username = req.Username)) with
  | some existingProfile => duplicateEntry env db (conflictMessage env existingProfile req)
  | none =>
    match env.GenerateFromPassword req.Password with
    | none =>
      let appErr := env.NewInternalError "Failed to process password"
      { db := db, response := Response.error appErr.StatusCode appErr.Message (some appErr),
        cookie := none }
    | some hashedPassword =>
      let profileUser : ProfileUser :=
        { ID := 0, Username := req.Username, Email := env.TrimAndLower req.Email,
          Name := req.FullName, Role := role, GoogleID := none, PasswordLess := false }
      match TransactionManager db (registerTx env faults profileUser hashedPassword) with
      | (db1, Except.error appErr) =>
        { db := db1, response := Response.error appErr.StatusCode appErr.Message (some appErr),
          cookie := none }
      | (db1, Except.ok createdProfile) =>
        if createdProfile.ID > 0 then
          { db := db1, response := Response.created "User created successfully" createdProfile,
            cookie := none }
        else
          { db := db1, response := Response.silent, cookie := none }

/-- The response of the three failing checks of Login (lines 150-151, 156-157, 162-163). -/
def invalidCredentials (env : Env) (db : DB) : Result :=
  let appErr := env.NewAuthenticationError "Invalid credentials"
  { db := db, response := Response.error appErr.StatusCode appErr.Message (some appErr),
    cookie := none }

/-- The handler `Login`, for a request that `ShouldBindJSON` accepted. -/
def Login (env : Env) (db : DB) (req : LoginRequest) : Result :=
  match db.firstProfile (fun p => decide (p.Email = env.TrimAndLower req.Email)) with
  | none => invalidCredentials env db
  | some profileUser =>
    match db.firstAuth (fun a => decide (a.UserID = profileUser.ID)) with
    | none => invalidCredentials env db
    | some authUser =>
      if env.CompareHashAndPassword authUser.Password req.Password = false then
        invalidCredentials env db
      else
        match env.GenerateJWT profileUser.ID with
        | none =>
          let appErr := env.NewInternalError "Failed to generate token"
          { db := db, response := Response.error appErr.StatusCode appErr.Message (some appErr),
            cookie := none }
        | some token =>
          { db := db, response := Response.success "Login successful" token none,
            cookie := some token }

/-- The constant `http.StatusInternalServerError`. -/
def StatusInternalServerError : Nat := 500

/-- Lines 232-242 of GoogleOAuth: the account exists. -/
def existingAccount (env : Env) (db : DB) (existingProfile : ProfileUser) : Result :=
  match env.GenerateJWT existingProfile.ID with
  | none =>
    { db := db, response := Response.error StatusInternalServerError "Failed to generate token" none,
      cookie := none }
  | some token =>
    { db := db,
      response := Response.success "Google OAuth login successful" token (some existingProfile),
      cookie := none }

/-- The slice expression `s[:n]` on a string: none for the run-time panic
(slice bounds out of range) when the string has fewer than `n` bytes. -/
def slicePrefix (s : GoString) (n : Nat) : Option GoString :=
  if s.length < n then none else some (s.take n)

/-- Lines 244-249 of GoogleOAuth: the username the new row gets, none when the
slice expression panics. -/
def oauthUsername (db : DB) (req : GoogleOAuthRequest) : Option GoString :=
  match db.firstProfile (fun p => decide (p.Username = req.Username)) with
  | some _ =>
    match slicePrefix req.GoogleID 8 with
    | none => none
    | some suffix => some (req.Username ++ str "_" ++ suffix)
  | none => some req.Username

/-- The handler `GoogleOAuth`, for a request that `ShouldBindJSON` accepted;
`ioError` is an I/O error of the insert. -/
def GoogleOAuth (env : Env) (ioError : Bool) (db : DB) (req : GoogleOAuthRequest) : Result :=
  match db.firstProfile (fun p =>
      decide (p.Email = req.Email) || decide (p.GoogleID = some req.GoogleID)) with
  | some existingProfile => existingAccount env db existingProfile
  | none =>
    match oauthUsername db req with
    | none => { db := db, response := Response.panic, cookie := none }
    | some username =>
      let profileUser : ProfileUser :=
        { ID := 0, Username := username, Email := req.Email, Name := req.Name,
          GoogleID := some req.GoogleID, Role := str "user", PasswordLess := true }
      match db.createProfile ioError profileUser with
      | (db1, none) =>
        { db := db1, response := Response.error StatusInternalServerError "Failed to create user" none,
          cookie := none }
      | (db1, some profileUser) =>
        match env.GenerateJWT profileUser.ID with
        | none =>
          { db := db1,
            response := Response.error StatusInternalServerError "Failed to generate token" none,
            cookie := none }
        | some token =>
          { db := db1,
            response := Response.success "Google OAuth registration successful" token
              (some profileUser),
            cookie := none }

/-- A request to one of the three handlers, with the I/O errors of its inserts. -/
inductive Op
  | register (faults : Faults) (req : RegisterRequest)
  | login (req : LoginRequest)
  | googleOAuth (ioError : Bool) (req : GoogleOAuthRequest)

/-- Handling one request. -/
def handle (env : Env) (db : DB) : Op → Result
  | Op.register faults req => Register env faults db req
  | Op.login req => Login env db req
  | Op.googleOAuth ioError req => GoogleOAuth env ioError db req

/-- The store after a sequence of requests. -/
def runOps (env : Env) (db : DB) (ops : List Op) : DB :=
  ops.foldl (fun d op => (handle env d op).db) db

/-! ## A concrete environment

Stand-ins for the absent helpers, used only to evaluate the handlers at
concrete requests. -/

/-- Modelled from the spec: `utils.TrimAndLower`, absent from the sources; the
email "trimmed, lower-cased": white space removed at both ends and the capital
letters A-Z lowered. -/
def trimAndLower (s : GoString) : GoString :=
  let isSpace := fun (b : Nat) => decide (b = 32) || (decide (9 ≤ b) && decide (b ≤ 13))
  let lower := fun (b : Nat) => if 65 ≤ b ∧ b ≤ 90 then b + 32 else b
  (((s.dropWhile isSpace).reverse.dropWhile isSpace).reverse).map lower

/-- An environment for concrete runs: `trimAndLower`; a token that names its
subject; a hash that is the password behind a marker; the usual HTTP codes. -/
def testEnv : Env :=
  { TrimAndLower := trimAndLower
    GenerateJWT := fun id => some (str "jwt" ++ [48 + id % 10])
    GenerateFromPassword := fun pw => some (str "$2a$" ++ pw)
    CompareHashAndPassword := fun h pw => decide (h = str "$2a$" ++ pw)
    StatusCode := fun k =>
      match k with
      | ErrorKind.validation => 400
      | ErrorKind.duplicate => 409
      | ErrorKind.authentication => 401
      | ErrorKind.notFound => 404
      | ErrorKind.internal => 500
      | ErrorKind.database => 500 }

/-! ## Concrete requests and stores -/

/-- A registration of bob with email a@x.com. -/
def regBob : RegisterRequest :=
  { Username := str "bob", FullName := str "Bob", Email := str "a@x.com",
    Password := str "Passw0rd!", Role := [] }

/-- A registration of alice with email b@x.com. -/
def regAlice : RegisterRequest :=
  { Username := str "alice", FullName := str "Alice", Email := str "b@x.com",
    Password := str "Passw0rd!", Role := [] }

/-- A registration with the username of bob and the email of alice. -/
def regBobWithAliceEmail : RegisterRequest :=
  { Username := str "bob", FullName := str "Bobby", Email := str "B@x.com",
    Password := str "Passw0rd!", Role := [] }

/-- The store after bob registered. -/
def storeBob : DB := (Register testEnv noFaults emptyDB regBob).db

/-- The store after bob, then alice, registered. -/
def storeBobAlice : DB := (Register testEnv noFaults storeBob regAlice).db

/-- A federated sign-in of carol. -/
def oauthCarol : GoogleOAuthRequest :=
  { Email := str "c@x.com", Username := str "carol", GoogleID := str "1234567890",
    Name := str "Carol", Picture := [] }

/-- The store after bob and alice registered and carol signed in through Google. -/
def storeBobAliceCarol : DB := (GoogleOAuth testEnv false storeBobAlice oauthCarol).db

/-- A registration of dave with email d@x.com. -/
def regDave : RegisterRequest :=
  { Username := str "dave", FullName := str "Dave", Email := str "d@x.com",
    Password := str "Passw0rd!", Role := [] }

/-- The store after bob registered and carol signed in through Google. -/
def storeBobCarol : DB := (GoogleOAuth testEnv false storeBob oauthCarol).db

/-- A store with no ProfileUser and one AuthUser whose UserID is the ID the
sequence of `profile_users` hands out next. -/
def storeStrayCredential : DB :=
  { profiles := [], auths := [{ ID := 1, UserID := 1, Password := str "$2a$Passw0rd!" }],
    profileSeq := 0, authSeq := 1 }

/-- A federated sign-in that suggests the taken username bob and carries a
three-byte external id. -/
def oauthShortID : GoogleOAuthRequest :=
  { Email := str "p@x.com", Username := str "bob", GoogleID := str "abc",
    Name := str "P", Picture := [] }

/-- A federated sign-in that suggests the taken username bob. -/
def oauthBobFirst : GoogleOAuthRequest :=
  { Email := str "p1@x.com", Username := str "bob", GoogleID := str "1234567890",
    Name := str "Bob One", Picture := [] }

/-- Another federated sign-in that suggests bob; its external id shares its
first eight bytes with that of `oauthBobFirst`. -/
def oauthBobSecond : GoogleOAuthRequest :=
  { Email := str "p2@x.com", Username := str "bob", GoogleID := str "1234567899",
    Name := str "Bob Two", Picture := [] }

/-- The store after bob registered and `oauthBobFirst` signed in. -/
def storeBobFirst : DB := (GoogleOAuth testEnv false storeBob oauthBobFirst).db

/-- A federated sign-in whose email is that of bob written with a capital. -/
def oauthUpper : GoogleOAuthRequest :=
  { Email := str "A@x.com", Username := str "al", GoogleID := str "1234567890",
    Name := str "Al", Picture := [] }

/-! ## Predicates of the specification -/

/-- The three causes for which a login fails: no ProfileUser has the normalized
email; the ProfileUser found has no AuthUser; the password does not verify
against the stored hash. -/
inductive LoginFailure (env : Env) (db : DB) (req : LoginRequest) : Prop
  | unknownEmail :
      (∀ p ∈ db.profiles, p.Email ≠ env.TrimAndLower req.Email) → LoginFailure env db req
  | noCredential (p : ProfileUser) :
      db.firstProfile (fun p => decide (p.Email = env.TrimAndLower req.Email)) = some p →
      (∀ a ∈ db.auths, a.UserID ≠ p.ID) → LoginFailure env db req
  | wrongPassword (p : ProfileUser) (a : AuthUser) :
      db.firstProfile (fun p => decide (p.Email = env.TrimAndLower req.Email)) = some p →
      db.firstAuth (fun a => decide (a.UserID = p.ID)) = some a →
      env.CompareHashAndPassword a.Password req.Password = false → LoginFailure env db req

/-- The number of AuthUser rows whose UserID is `id`. -/
def credentialCount (db : DB) (id : Nat) : Nat :=
  db.auths.countP (fun a => decide (a.UserID = id))

/-- The store predicate of the data model: a ProfileUser with
`PasswordLess = false` has exactly one AuthUser, one with `PasswordLess = true`
has none. -/
def CredentialInvariant (db : DB) : Prop :=
  ∀ p ∈ db.profiles, credentialCount db p.ID = if p.PasswordLess then 0 else 1

instance (db : DB) : Decidable (CredentialInvariant db) := by
  unfold CredentialInvariant
  infer_instance

/-- Every ID in use was handed out by the sequence of `profile_users`: the ID
of a ProfileUser and the UserID of an AuthUser are at most its last value. -/
def IssuedIDs (db : DB) : Prop :=
  (∀ p ∈ db.profiles, p.ID ≤ db.profileSeq) ∧ (∀ a ∈ db.auths, a.UserID ≤ db.profileSeq)

instance (db : DB) : Decidable (IssuedIDs db) := by
  unfold IssuedIDs
  infer_instance

/-- The store predicate on emails: every stored email is in normalized form and
no two ProfileUsers have the same normalized email. -/
def EmailInvariant (env : Env) (db : DB) : Prop :=
  (∀ p ∈ db.profiles, env.TrimAndLower p.Email = p.Email) ∧
  db.profiles.Pairwise (fun p q => env.TrimAndLower p.Email ≠ env.TrimAndLower q.Email)

instance (env : Env) (db : DB) : Decidable (EmailInvariant env db) := by
  unfold EmailInvariant
  infer_instance

/-! ## The limiter: basic facts -/

theorem validRequests_foldl (cutoff : Time) (requests acc : List Time) :
    requests.foldl (fun valid reqTime => if reqTime > cutoff then valid ++ [reqTime] else valid) acc
      = acc ++ requests.filter (fun t => decide (cutoff < t)) := by
  induction requests generalizing acc with
  | nil => simp
  | cons r rs ih =>
    simp only [List.foldl_cons, ih, List.filter_cons]
    by_cases h : cutoff < r
    · simp [h, gt_iff_lt]
    · simp [h, gt_iff_lt]

theorem validRequests_eq_filter (requests : List Time) (cutoff : Time) :
    validRequests requests cutoff = requests.filter (fun t => decide (cutoff < t)) := by
  unfold validRequests
  rw [validRequests_foldl]
  simp

theorem get_set_self (rl : rateLimiter) (k : GoString) (v : List Time) :
    (rl.set k v).get k = v := by
  simp [rateLimiter.get, rateLimiter.set]

theorem requests_set_other (rl : rateLimiter) (k k' : GoString) (v : List Time) (h : k' ≠ k) :
    (rl.set k v).requests k' = rl.requests k' := by
  simp [rateLimiter.set, h]

theorem clean_get_self (rl : rateLimiter) (k : GoString) (now : Time) :
    (rl.clean k now).get k = (rl.get k).filter (fun t => decide (now - rl.window < t)) := by
  unfold rateLimiter.clean
  cases h : rl.requests k with
  | none => simp [rateLimiter.get, h]
  | some rs =>
    simp only [get_set_self, validRequests_eq_filter]
    simp [rateLimiter.get, h, Int.sub_eq_add_neg]

theorem clean_requests_other (rl : rateLimiter) (k k' : GoString) (now : Time) (h : k' ≠ k) :
    (rl.clean k now).requests k' = rl.requests k' := by
  unfold rateLimiter.clean
  cases rl.requests k with
  | none => rfl
  | some rs => exact requests_set_other rl k k' _ h

theorem clean_limit (rl : rateLimiter) (k : GoString) (now : Time) :
    (rl.clean k now).limit = rl.limit := by
  unfold rateLimiter.clean
  cases rl.requests k <;> rfl

theorem clean_window (rl : rateLimiter) (k : GoString) (now : Time) :
    (rl.clean k now).window = rl.window := by
  unfold rateLimiter.clean
  cases rl.requests k <;> rfl

theorem allow_fst (rl : rateLimiter) (k : GoString) (now : Time) :
    (rl.allow k now).1 = decide (((pruned rl k now).length : Int) < rl.limit) := by
  unfold rateLimiter.allow pruned
  simp only [clean_get_self, clean_limit]
  split
  · rename_i h; simp [not_lt.mpr h]
  · rename_i h; simp [not_le.mp h]

theorem allow_get_self (rl : rateLimiter) (k : GoString) (now : Time) :
    (rl.allow k now).2.get k =
      if (rl.allow k now).1 then pruned rl k now ++ [now] else pruned rl k now := by
  unfold rateLimiter.allow pruned
  simp only [clean_get_self, clean_limit]
  split
  · simp [clean_get_self]
  · simp [get_set_self]

theorem allow_requests_other (rl : rateLimiter) (k k' : GoString) (now : Time) (h : k' ≠ k) :
    (rl.allow k now).2.requests k' = rl.requests k' := by
  unfold rateLimiter.allow
  simp only []
  split
  · exact clean_requests_other rl k k' now h
  · rw [requests_set_other _ _ _ _ h]; exact clean_requests_other rl k k' now h

theorem allow_get_other (rl : rateLimiter) (k k' : GoString) (now : Time) (h : k' ≠ k) :
    (rl.allow k now).2.get k' = rl.get k' := by
  simp [rateLimiter.get, allow_requests_other rl k k' now h]

theorem allow_limit (rl : rateLimiter) (k : GoString) (now : Time) :
    (rl.allow k now).2.limit = rl.limit := by
  unfold rateLimiter.allow
  simp only []
  split
  · exact clean_limit rl k now
  · exact clean_limit rl k now

theorem allow_window (rl : rateLimiter) (k : GoString) (now : Time) :
    (rl.allow k now).2.window = rl.window := by
  unfold rateLimiter.allow
  simp only []
  split
  · exact clean_window rl k now
  · exact clean_window rl k now

theorem runCalls_append (rl : rateLimiter) (cs ds : List (GoString × Time)) :
    runCalls rl (cs ++ ds) =
      ((runCalls rl cs).1 ++ (runCalls (runCalls rl cs).2 ds).1, (runCalls (runCalls rl cs).2 ds).2) := by
  induction cs generalizing rl with
  | nil => simp [runCalls]
  | cons c cs ih => simp [runCalls, ih]

theorem runCalls_length (rl : rateLimiter) (cs : List (GoString × Time)) :
    (runCalls rl cs).1.length = cs.length := by
  induction cs generalizing rl with
  | nil => simp [runCalls]
  | cons c cs ih => simp [runCalls, ih]

theorem runCalls_limit (rl : rateLimiter) (cs : List (GoString × Time)) :
    (runCalls rl cs).2.limit = rl.limit := by
  induction cs generalizing rl with
  | nil => simp [runCalls]
  | cons c cs ih => simp [runCalls, ih, allow_limit]

theorem runCalls_window (rl : rateLimiter) (cs : List (GoString × Time)) :
    (runCalls rl cs).2.window = rl.window := by
  induction cs generalizing rl with
  | nil => simp [runCalls]
  | cons c cs ih => simp [runCalls, ih, allow_window]

theorem admitted_append (k : GoString) (cs ds : List (GoString × Time)) (bs es : List Bool)
    (h : cs.length = bs.length) :
    admitted k (cs ++ ds) (bs ++ es) = admitted k cs bs ++ admitted k ds es := by
  unfold admitted
  rw [List.zip_append h, List.filter_append, List.map_append]

theorem admitted_single (k : GoString) (c : GoString × Time) (b : Bool) :
    admitted k [c] [b] = if c.1 = k ∧ b = true then [c.2] else [] := by
  unfold admitted
  by_cases h1 : c.1 = k <;> cases b <;> simp [h1]

theorem filter_filter_of_le (l : List Time) (c d : Time) (h : d ≤ c) :
    (l.filter (fun t => decide (d < t))).filter (fun t => decide (c < t))
      = l.filter (fun t => decide (c < t)) := by
  rw [List.filter_filter]
  apply List.filter_congr
  intro x _
  by_cases hx : c < x
  · have : d < x := lt_of_le_of_lt h hx
    simp [hx, this]
  · simp [hx]

theorem countWithin_append (W : Duration) (t : Time) (l m : List Time) :
    countWithin W t (l ++ m) = countWithin W t l + countWithin W t m := by
  simp [countWithin, List.countP_append]

theorem countWithin_le_filter (W : Duration) (t now : Time) (l : List Time) (h : now ≤ t) :
    countWithin W t l ≤ (l.filter (fun a => decide (now - W < a))).length := by
  unfold countWithin
  rw [← List.countP_eq_length_filter]
  apply List.countP_mono_left
  intro a _ ha
  simp only [Bool.and_eq_true, decide_eq_true_eq] at ha ⊢
  linarith [ha.1]

/-- The invariant of a run from a fresh limiter under a non-decreasing clock:
beyond any cutoff not older than the last one, the stored sequence of a key is
the log of its admitted instants; and no half-open window holds more than
`limit` admitted instants. -/
theorem run_invariant (L : Int) (W : Duration) (hL : 0 < L) (k : GoString)
    (calls : List (GoString × Time))
    (hs : (calls.map Prod.snd).Pairwise (fun a b => a ≤ b)) :
    (∀ c, (∀ t ∈ calls.map Prod.snd, t - W ≤ c) →
        ((runCalls (newRateLimiter L W) calls).2.get k).filter (fun t => decide (c < t))
          = (admitted k calls (runCalls (newRateLimiter L W) calls).1).filter
              (fun t => decide (c < t))) ∧
    (∀ t, (countWithin W t (admitted k calls (runCalls (newRateLimiter L W) calls).1) : Int) ≤ L) := by
  induction calls using List.reverseRecOn with
  | nil =>
    constructor
    · intro c _; simp [runCalls, admitted, newRateLimiter, rateLimiter.get]
    · intro t; simp [runCalls, admitted, countWithin]; omega
  | append_singleton cs c ih =>
    rw [List.map_append, List.pairwise_append] at hs
    obtain ⟨hcs, -, hle⟩ := hs
    obtain ⟨ih1, ih2⟩ := ih hcs
    have hlen := runCalls_length (newRateLimiter L W) cs
    have hlim : (runCalls (newRateLimiter L W) cs).2.limit = L := by rw [runCalls_limit]; rfl
    have hwin : (runCalls (newRateLimiter L W) cs).2.window = W := by rw [runCalls_window]; rfl
    rw [runCalls_append]
    simp only []
    generalize runCalls (newRateLimiter L W) cs = r at *
    have hrun1 : runCalls r.2 [c] = ([(r.2.allow c.1 c.2).1], (r.2.allow c.1 c.2).2) := by
      simp [runCalls]
    rw [hrun1]
    simp only []
    rw [admitted_append k cs [c] r.1 _ hlen.symm, admitted_single]
    have hle2 : ∀ t ∈ cs.map Prod.snd, t ≤ c.2 := fun t ht => hle t ht c.2 (by simp)
    by_cases hk : c.1 = k
    · have hp : pruned r.2 k c.2 = (admitted k cs r.1).filter (fun t => decide (c.2 - W < t)) := by
        unfold pruned
        rw [hwin]
        apply ih1
        intro t ht
        have := hle2 t ht
        linarith
      have hget := allow_get_self r.2 k c.2
      have hfst := allow_fst r.2 k c.2
      rw [hk]
      cases hb : (r.2.allow k c.2).1
      · rw [hb] at hget
        simp only [Bool.false_eq_true, and_false, if_false, List.append_nil] at hget ⊢
        refine ⟨?_, ih2⟩
        intro d hd
        have hcd : c.2 - W ≤ d := hd c.2 (by simp)
        rw [hget, hp, filter_filter_of_le _ _ _ hcd]
      · rw [hb] at hget hfst
        simp only [and_true, if_true] at hget ⊢
        have hlt : ((pruned r.2 k c.2).length : Int) < L := by
          rw [← hlim]; exact of_decide_eq_true hfst.symm
        constructor
        · intro d hd
          have hcd : c.2 - W ≤ d := hd c.2 (by simp)
          rw [hget, hp, List.filter_append, List.filter_append, filter_filter_of_le _ _ _ hcd]
        · intro t
          rw [countWithin_append]
          by_cases hin : c.2 ≤ t
          · have h1 := countWithin_le_filter W t c.2 (admitted k cs r.1) hin
            rw [← hp] at h1
            have h2 : countWithin W t [c.2] ≤ 1 := by
              unfold countWithin
              exact le_trans (List.countP_le_length _) (by simp)
            omega
          · have h2 : countWithin W t [c.2] = 0 := by
              simp [countWithin, hin]
            rw [h2]
            simpa using ih2 t
    · have hget := allow_get_other r.2 c.1 k c.2 (Ne.symm hk)
      simp only [hk, false_and, if_false, List.append_nil]
      refine ⟨?_, ih2⟩
      intro d hd
      rw [hget]
      apply ih1
      intro t ht
      exact hd t (by simp [List.mem_append] at ht ⊢; exact Or.inl ht)

theorem filter_replicate_self (n : Nat) (t c : Time) (h : c < t) :
    (List.replicate n t).filter (fun a => decide (c < a)) = List.replicate n t := by
  rw [List.filter_eq_self]
  intro a ha
  rw [List.eq_of_mem_replicate ha]
  simpa using h

/-- A burst at one instant on a key whose sequence holds `n` copies of that
instant: the next `m` calls are admitted as long as `n + m` stays within the limit. -/
theorem burst_admitted (key : GoString) (t : Time) (m : Nat) :
    ∀ (n : Nat) (rl : rateLimiter), rl.get key = List.replicate n t → 0 < rl.window →
      ((n + m : Nat) : Int) ≤ rl.limit →
      (runCalls rl (List.replicate m (key, t))).1 = List.replicate m true ∧
      (runCalls rl (List.replicate m (key, t))).2.get key = List.replicate (n + m) t := by
  induction m with
  | zero => intro n rl hg _ _; simp [runCalls, hg]
  | succ m ih =>
    intro n rl hg hw hle
    have hp : pruned rl key t = List.replicate n t := by
      unfold pruned
      rw [hg]
      exact filter_replicate_self n t _ (by linarith)
    have hfst : (rl.allow key t).1 = true := by
      rw [allow_fst, hp]
      simp only [List.length_replicate, decide_eq_true_eq]
      push_cast at hle
      omega
    have hget : (rl.allow key t).2.get key = List.replicate (n + 1) t := by
      rw [allow_get_self, hfst, hp]
      simp [List.replicate_succ']
    have hstep := ih (n + 1) (rl.allow key t).2 hget (by rw [allow_window]; exact hw)
      (by rw [allow_limit]; push_cast at hle ⊢; omega)
    simp only [List.replicate_succ, runCalls, hfst, hstep.1, hstep.2]
    refine ⟨trivial, ?_⟩
    congr 1
    omega

/-- Every timestamp a key's sequence holds after a run from a fresh limiter is
the instant of an admitted call on that key. -/
theorem stored_subset_admitted (L : Int) (W : Duration) (k : GoString)
    (calls : List (GoString × Time)) :
    ∀ x ∈ (runCalls (newRateLimiter L W) calls).2.get k,
      x ∈ admitted k calls (runCalls (newRateLimiter L W) calls).1 := by
  induction calls using List.reverseRecOn with
  | nil => intro x hx; simp [runCalls, newRateLimiter, rateLimiter.get] at hx
  | append_singleton cs c ih =>
    have hlen := runCalls_length (newRateLimiter L W) cs
    rw [runCalls_append]
    simp only []
    generalize runCalls (newRateLimiter L W) cs = r at *
    have hrun1 : runCalls r.2 [c] = ([(r.2.allow c.1 c.2).1], (r.2.allow c.1 c.2).2) := by
      simp [runCalls]
    rw [hrun1]
    simp only []
    rw [admitted_append k cs [c] r.1 _ hlen.symm, admitted_single]
    intro x hx
    by_cases hk : c.1 = k
    · rw [hk] at hx ⊢
      rw [allow_get_self] at hx
      have hsub : ∀ y ∈ pruned r.2 k c.2, y ∈ admitted k cs r.1 := by
        intro y hy
        exact ih y (List.mem_of_mem_filter hy)
      cases hb : (r.2.allow k c.2).1
      · rw [hb] at hx
        simp only [Bool.false_eq_true, if_false] at hx
        exact List.mem_append_left _ (hsub x hx)
      · rw [hb] at hx
        simp only [if_true, List.mem_append, List.mem_singleton] at hx
        rcases hx with hx | hx
        · exact List.mem_append_left _ (hsub x hx)
        · simp [hx]
    · rw [allow_get_other r.2 c.1 k c.2 (Ne.symm hk)] at hx
      exact List.mem_append_left _ (ih x hx)

/-! ## The limiter: the specified properties -/

/-- C1, as stated, fails. With limit 1 and window 60, calls on one key at
instants 0 and 60 (a non-decreasing clock) are both admitted, because pruning
at instant 60 drops the timestamp equal to the cutoff 0; the closed trailing
window `[0, 60]` of the second call then holds two admitted calls. -/
theorem allow_closed_window_counterexample :
    (0 : Int) < 1 ∧ (0 : Duration) < 60 ∧
    List.Pairwise (fun a b => a ≤ b) ([(str "k", (0 : Time)), (str "k", 60)].map Prod.snd) ∧
    (runCalls (newRateLimiter 1 60) [(str "k", 0), (str "k", 60)]).1 = [true, true] ∧
    countClosed 60 60
      (admitted (str "k") [(str "k", 0), (str "k", 60)]
        (runCalls (newRateLimiter 1 60) [(str "k", 0), (str "k", 60)]).1) = 2 := by
  decide

/-- C1, amended to the half-open window. For a limiter built with limit > 0,
every client key and every finite sequence of allow calls with non-decreasing
clock readings: for every instant `t` (in particular every call instant), the
number of calls on that key that returned true and whose instant lies in the
trailing window `(t - window, t]` is at most limit. -/
theorem allow_window_bound (limit : Int) (window : Duration) (hl : 0 < limit)
    (key : GoString) (calls : List (GoString × Time))
    (hmono : (calls.map Prod.snd).Pairwise (fun a b => a ≤ b)) (t : Time) :
    (countWithin window t
      (admitted key calls (runCalls (newRateLimiter limit window) calls).1) : Int) ≤ limit :=
  (run_invariant limit window hl key calls hmono).2 t

/-- C1 at limit 2, window 60 and calls of one key at instants 0, 10, 20, 61: the
third is rejected and the window `(1, 61]` holds two admitted calls. -/
theorem allow_window_bound_witness :
    List.Pairwise (fun a b => a ≤ b)
      ([(str "k", (0 : Time)), (str "k", 10), (str "k", 20), (str "k", 61)].map Prod.snd) ∧
    (runCalls (newRateLimiter 2 60) [(str "k", 0), (str "k", 10), (str "k", 20), (str "k", 61)]).1
      = [true, true, false, true] ∧
    (countWithin 60 61
      (admitted (str "k") [(str "k", 0), (str "k", 10), (str "k", 20), (str "k", 61)]
        (runCalls (newRateLimiter 2 60)
          [(str "k", 0), (str "k", 10), (str "k", 20), (str "k", 61)]).1) : Int) ≤ 2 :=
  ⟨by decide, by decide,
    allow_window_bound 2 60 (by decide) (str "k")
      [(str "k", 0), (str "k", 10), (str "k", 20), (str "k", 61)] (by decide) 61⟩

/-- C2. On the strict limiter (limit 10, window one minute), ten calls of a key
at one instant return true, the eleventh at that instant returns false and a
call 61 s later returns true. In general, for a limit L > 0 and a window > 0,
the first L calls of a key with no entry at one instant return true and the
(L+1)th returns false; and after any run from a fresh limiter, a call made more
than window after every earlier admitted call of its key returns true. -/
theorem allow_burst_then_recover (L : Nat) (W : Duration) (hL : 0 < L) (hW : 0 < W)
    (key : GoString) (t : Time) :
    (runCalls strictLimiter (List.replicate 11 (key, t) ++ [(key, t + 61 * Second)])).1
        = List.replicate 10 true ++ [false, true] ∧
    (∀ rl : rateLimiter, rl.limit = L → rl.window = W → rl.requests key = none →
        (runCalls rl (List.replicate (L + 1) (key, t))).1 = List.replicate L true ++ [false]) ∧
    (∀ (calls : List (GoString × Time)) (now : Time),
        (∀ a ∈ admitted key calls (runCalls (newRateLimiter L W) calls).1, a + W < now) →
        ((runCalls (newRateLimiter L W) calls).2.allow key now).1 = true) := by
  have burst : ∀ (n : Nat) (rl : rateLimiter), rl.limit = n → 0 < rl.window →
      rl.requests key = none →
      (runCalls rl (List.replicate (n + 1) (key, t))).1 = List.replicate n true ++ [false] ∧
      (runCalls rl (List.replicate (n + 1) (key, t))).2.get key = List.replicate n t := by
    intro n rl hlim hw hnone
    have hg : rl.get key = List.replicate 0 t := by simp [rateLimiter.get, hnone]
    obtain ⟨h1, h2⟩ := burst_admitted key t n 0 rl hg hw (by rw [hlim]; simp)
    rw [Nat.zero_add] at h2
    have hp : pruned (runCalls rl (List.replicate n (key, t))).2 key t = List.replicate n t := by
      unfold pruned
      rw [h2]
      exact filter_replicate_self n t _ (by rw [runCalls_window]; linarith)
    have hfst : ((runCalls rl (List.replicate n (key, t))).2.allow key t).1 = false := by
      rw [allow_fst, hp, runCalls_limit, hlim]
      simp
    have hget := allow_get_self (runCalls rl (List.replicate n (key, t))).2 key t
    rw [hfst, hp] at hget
    rw [List.replicate_succ', runCalls_append]
    simp only [runCalls, h1, hfst]
    exact ⟨trivial, by simpa using hget⟩
  refine ⟨?_, ?_, ?_⟩
  · obtain ⟨h1, h2⟩ := burst 10 strictLimiter rfl (by decide) rfl
    have hwin := runCalls_window strictLimiter (List.replicate 11 (key, t))
    have hlim := runCalls_limit strictLimiter (List.replicate 11 (key, t))
    rw [runCalls_append]
    simp only [Nat.reduceAdd] at h1 h2
    generalize runCalls strictLimiter (List.replicate 11 (key, t)) = r at h1 h2 hwin hlim ⊢
    have hp : pruned r.2 key (t + 61 * Second) = [] := by
      unfold pruned
      rw [h2, hwin, List.filter_eq_nil_iff]
      intro a ha
      rw [List.eq_of_mem_replicate ha]
      simp only [strictLimiter, newRateLimiter, Minute, Second, decide_eq_true_eq, not_lt]
      linarith
    have hfst : (r.2.allow key (t + 61 * Second)).1 = true := by
      rw [allow_fst, hp, hlim]
      decide
    simp only [runCalls, h1, hfst]
    rfl
  · intro rl hlim hw hnone
    exact (burst L rl hlim (by rw [hw]; exact hW) hnone).1
  · intro calls now hfar
    have hp : pruned (runCalls (newRateLimiter L W) calls).2 key now = [] := by
      unfold pruned
      rw [List.filter_eq_nil_iff]
      intro a ha
      have := hfar a (stored_subset_admitted L W key calls a ha)
      rw [runCalls_window]
      simp only [newRateLimiter, decide_eq_true_eq, not_lt]
      linarith
    rw [allow_fst, hp, runCalls_limit]
    simp only [newRateLimiter, List.length_nil, decide_eq_true_eq]
    exact_mod_cast hL

/-- C2 at limit 10, window one minute, key 10.0.0.1 and instant 0. -/
theorem allow_burst_then_recover_witness :
    (0 : Nat) < 10 ∧ (0 : Duration) < Minute ∧
    (runCalls strictLimiter
        (List.replicate 11 (str "10.0.0.1", (0 : Time)) ++ [(str "10.0.0.1", 0 + 61 * Second)])).1
      = List.replicate 10 true ++ [false, true] :=
  ⟨by decide, by decide,
    (allow_burst_then_recover 10 Minute (by decide) (by decide) (str "10.0.0.1") 0).1⟩

/-- C9, as stated, fails. After one admitted call at instant 0 (window 60), the
key's sequence is `[0]`; pruning at instant 60 has cutoff 0, and the timestamp
equal to the cutoff is dropped although it is not strictly older than it. -/
theorem clean_drops_cutoff_counterexample :
    ((newRateLimiter 1 60).allow (str "k") 0).2.get (str "k") = [0] ∧
    (0 : Time) ≥ 60 - ((newRateLimiter 1 60).allow (str "k") 0).2.window ∧
    ((((newRateLimiter 1 60).allow (str "k") 0).2.clean (str "k") 60).get (str "k")) = [] := by
  decide

/-- C9, amended. With cutoff = now - window, the pruning step of allow keeps
exactly the timestamps strictly after cutoff, in their order: the pruned
sequence is the original one filtered by `cutoff < t`, so a timestamp survives
if and only if it was stored and `t > cutoff` (one equal to cutoff is dropped),
and the survivors are a subsequence of the original. -/
theorem clean_keeps_after_cutoff (rl : rateLimiter) (key : GoString) (now : Time) :
    (rl.clean key now).get key = (rl.get key).filter (fun t => decide (now - rl.window < t)) ∧
    (∀ t, t ∈ (rl.clean key now).get key ↔ (t ∈ rl.get key ∧ now - rl.window < t)) ∧
    List.Sublist ((rl.clean key now).get key) (rl.get key) := by
  have h := clean_get_self rl key now
  refine ⟨h, ?_, ?_⟩
  · intro t
    rw [h, List.mem_filter]
    simp
  · rw [h]
    exact List.filter_sublist _

/-- C10. When allow returns false the sequence stored for the key afterwards is
the pruned sequence; when it returns true it is the pruned sequence with the
call instant appended at the end; in both cases the entries of every other key,
the limit and the window are unchanged. -/
theorem allow_frame (rl : rateLimiter) (key : GoString) (now : Time) :
    ((rl.allow key now).1 = false → (rl.allow key now).2.get key = (rl.clean key now).get key) ∧
    ((rl.allow key now).1 = true →
        (rl.allow key now).2.get key = (rl.clean key now).get key ++ [now]) ∧
    (∀ other, other ≠ key → (rl.allow key now).2.requests other = rl.requests other) ∧
    (rl.allow key now).2.limit = rl.limit ∧
    (rl.allow key now).2.window = rl.window := by
  have hget := allow_get_self rl key now
  have hc := clean_get_self rl key now
  unfold pruned at hget
  rw [← hc] at hget
  refine ⟨?_, ?_, ?_, allow_limit rl key now, allow_window rl key now⟩
  · intro hb; rw [hget, hb]; simp
  · intro hb; rw [hget, hb]; simp
  · intro other ho; exact allow_requests_other rl key other now ho

/-! ## The store: basic facts -/

theorem minRow_eq_none {α : Type} (id : α → Nat) (l : List α) :
    minRow id l = none ↔ l = [] := by
  cases l with
  | nil => simp [minRow]
  | cons r rs =>
    simp only [minRow]
    cases minRow id rs with
    | none => simp
    | some b => by_cases h : id b < id r <;> simp [h]

theorem minRow_some {α : Type} (id : α → Nat) (l : List α) (m : α) (h : minRow id l = some m) :
    m ∈ l ∧ ∀ r ∈ l, id m ≤ id r := by
  induction l generalizing m with
  | nil => simp [minRow] at h
  | cons r rs ih =>
    simp only [minRow] at h
    cases hrs : minRow id rs with
    | none =>
      rw [hrs] at h
      have hnil := (minRow_eq_none id rs).mp hrs
      simp only [Option.some.injEq] at h
      subst h
      subst hnil
      simp
    | some b =>
      rw [hrs] at h
      obtain ⟨hb, hmin⟩ := ih b hrs
      by_cases hlt : id b < id r
      · simp only [hlt, if_true, Option.some.injEq] at h
        subst h
        refine ⟨List.mem_cons_of_mem _ hb, ?_⟩
        intro x hx
        rcases List.mem_cons.mp hx with hx | hx
        · subst hx; exact Nat.le_of_lt hlt
        · exact hmin x hx
      · simp only [hlt, if_false, Option.some.injEq] at h
        subst h
        refine ⟨List.mem_cons_self _ _, ?_⟩
        intro x hx
        rcases List.mem_cons.mp hx with hx | hx
        · subst hx; exact Nat.le_refl _
        · exact Nat.le_trans (Nat.le_of_not_lt hlt) (hmin x hx)

theorem firstProfile_none (db : DB) (cond : ProfileUser → Bool) :
    db.firstProfile cond = none ↔ ∀ p ∈ db.profiles, cond p = false := by
  unfold DB.firstProfile
  rw [minRow_eq_none, List.filter_eq_nil_iff]
  simp

theorem firstProfile_some (db : DB) (cond : ProfileUser → Bool) (m : ProfileUser)
    (h : db.firstProfile cond = some m) :
    m ∈ db.profiles ∧ cond m = true ∧ ∀ p ∈ db.profiles, cond p = true → m.ID ≤ p.ID := by
  unfold DB.firstProfile at h
  obtain ⟨hm, hmin⟩ := minRow_some _ _ m h
  rw [List.mem_filter] at hm
  exact ⟨hm.1, hm.2, fun p hp hc => hmin p (List.mem_filter.mpr ⟨hp, hc⟩)⟩

theorem firstProfile_exists (db : DB) (cond : ProfileUser → Bool) (p : ProfileUser)
    (hp : p ∈ db.profiles) (hc : cond p = true) : ∃ m, db.firstProfile cond = some m := by
  cases h : db.firstProfile cond with
  | some m => exact ⟨m, rfl⟩
  | none =>
    have := (firstProfile_none db cond).mp h p hp
    rw [hc] at this
    exact absurd this (by simp)

theorem firstAuth_none (db : DB) (cond : AuthUser → Bool) :
    db.firstAuth cond = none ↔ ∀ a ∈ db.auths, cond a = false := by
  unfold DB.firstAuth
  rw [minRow_eq_none, List.filter_eq_nil_iff]
  simp

theorem conflictMessage_email (env : Env) (existing : ProfileUser) (req : RegisterRequest)
    (h : existing.Email = env.TrimAndLower req.Email) :
    conflictMessage env existing req = emailConflictMsg := by
  simp [conflictMessage, h]

theorem conflictMessage_username (env : Env) (existing : ProfileUser) (req : RegisterRequest)
    (h : existing.Email ≠ env.TrimAndLower req.Email) (hu : existing.Username = req.Username) :
    conflictMessage env existing req = usernameConflictMsg := by
  simp [conflictMessage, h, hu]

/-! ## Register and Login: the specified properties -/

/-- C3, as stated, fails. In the store where bob (ID 1, a@x.com) and alice
(ID 2, b@x.com) are registered, a registration with username bob and email
B@x.com finds alice under its normalized email, yet the row the lookup returns
is bob (the lower ID), whose email differs: the duplicate error carries the
username-conflict message, not the email-conflict one. -/
theorem register_email_conflict_counterexample :
    (∃ p ∈ storeBobAlice.profiles,
        p.Email = testEnv.TrimAndLower regBobWithAliceEmail.Email) ∧
    Register testEnv noFaults storeBobAlice regBobWithAliceEmail
      = duplicateEntry testEnv storeBobAlice usernameConflictMsg ∧
    (Register testEnv noFaults storeBobAlice regBobWithAliceEmail).response
      ≠ (duplicateEntry testEnv storeBobAlice emailConflictMsg).response := by
  decide

/-- C3, amended. Register fails with the duplicate error and creates no record
in both cases; the message is the email-conflict one when some ProfileUser `p`
has the request's normalized email and every ProfileUser holding the request's
username has that email too or an ID above the ID of `p`; it is the
username-conflict one when no ProfileUser has that email and one has exactly the
request's username. -/
theorem register_duplicate (env : Env) (faults : Faults) (db : DB) (req : RegisterRequest) :
    (∀ p ∈ db.profiles, p.Email = env.TrimAndLower req.Email →
        (∀ q ∈ db.profiles, q.Username = req.Username →
            q.Email = env.TrimAndLower req.Email ∨ p.ID < q.ID) →
        Register env faults db req =
          { db := db,
            response := Response.error (env.StatusCode ErrorKind.duplicate) emailConflictMsg
              (some { Kind := ErrorKind.duplicate, StatusCode := env.StatusCode ErrorKind.duplicate,
                      Message := emailConflictMsg }),
            cookie := none }) ∧
    ((∀ p ∈ db.profiles, p.Email ≠ env.TrimAndLower req.Email) →
        (∃ q ∈ db.profiles, q.Username = req.Username) →
        Register env faults db req =
          { db := db,
            response := Response.error (env.StatusCode ErrorKind.duplicate) usernameConflictMsg
              (some { Kind := ErrorKind.duplicate, StatusCode := env.StatusCode ErrorKind.duplicate,
                      Message := usernameConflictMsg }),
            cookie := none }) := by
  constructor
  · intro p hp hpe hq
    obtain ⟨m, hm⟩ := firstProfile_exists db
      (fun p => decide (p.Email = env.TrimAndLower req.Email) || decide (p.Username = req.Username))
      p hp (by simp [hpe])
    obtain ⟨hmem, hcond, hmin⟩ := firstProfile_some db _ m hm
    have hme : m.Email = env.TrimAndLower req.Email := by
      by_contra hne
      have hmu : m.Username = req.Username := by simpa [hne] using hcond
      rcases hq m hmem hmu with h | h
      · exact hne h
      · have := hmin p hp (by simp [hpe])
        omega
    simp only [Register, hm, conflictMessage_email env m req hme]
    rfl
  · intro hno hex
    obtain ⟨q, hq, hqu⟩ := hex
    obtain ⟨m, hm⟩ := firstProfile_exists db
      (fun p => decide (p.Email = env.TrimAndLower req.Email) || decide (p.Username = req.Username))
      q hq (by simp [hqu])
    obtain ⟨hmem, hcond, -⟩ := firstProfile_some db _ m hm
    have hne := hno m hmem
    have hmu : m.Username = req.Username := by simpa [hne] using hcond
    simp only [Register, hm, conflictMessage_username env m req hne hmu]
    rfl

/-- C3 (amended) at a request with a fresh username and the email of alice: the
email-conflict message. -/
theorem register_duplicate_witness :
    Register testEnv noFaults storeBobAlice
        { regBobWithAliceEmail with Username := str "carol" } =
      { db := storeBobAlice,
        response := Response.error 409 emailConflictMsg
          (some { Kind := ErrorKind.duplicate, StatusCode := 409, Message := emailConflictMsg }),
        cookie := none } :=
  (register_duplicate testEnv noFaults storeBobAlice
      { regBobWithAliceEmail with Username := str "carol" }).1
    { ID := 2, Username := str "alice", Email := str "b@x.com", Name := str "Alice",
      Role := str "user", GoogleID := none, PasswordLess := false }
    (by decide) (by decide) (by decide)

/-- C4. Two login requests that each fail for one of the three causes (unknown
email, no AuthUser for the ProfileUser found, password not verified) get the
same result: the authentication error with the message "Invalid credentials"
and its status code, no cookie and hence no token, the store untouched. -/
theorem login_failures_indistinguishable (env : Env) (db : DB) (req1 req2 : LoginRequest)
    (h1 : LoginFailure env db req1) (h2 : LoginFailure env db req2) :
    Login env db req1 = Login env db req2 ∧
    Login env db req1 =
      { db := db,
        response := Response.error (env.StatusCode ErrorKind.authentication) "Invalid credentials"
          (some { Kind := ErrorKind.authentication,
                  StatusCode := env.StatusCode ErrorKind.authentication,
                  Message := "Invalid credentials" }),
        cookie := none } := by
  have key : ∀ req, LoginFailure env db req → Login env db req = invalidCredentials env db := by
    intro req h
    cases h with
    | unknownEmail hno =>
      have : db.firstProfile (fun p => decide (p.Email = env.TrimAndLower req.Email)) = none := by
        rw [firstProfile_none]
        intro p hp
        simpa using hno p hp
      simp only [Login, this]
    | noCredential p hp hno =>
      have : db.firstAuth (fun a => decide (a.UserID = p.ID)) = none := by
        rw [firstAuth_none]
        intro a ha
        simpa using hno a ha
      simp only [Login, hp, this]
    | wrongPassword p a hp ha hc =>
      simp only [Login, hp, ha, hc, if_true]
  rw [key req1 h1, key req2 h2]
  exact ⟨rfl, rfl⟩

/-- C4 at the three causes: an unknown email, the passwordless account of carol,
and a wrong password for bob. -/
theorem login_failures_indistinguishable_witness :
    (Login testEnv storeBobAliceCarol { Email := str "zed@x.com", Password := str "Passw0rd!" }
      = Login testEnv storeBobAliceCarol { Email := str "c@x.com", Password := str "Passw0rd!" }) ∧
    (Login testEnv storeBobAliceCarol { Email := str "c@x.com", Password := str "Passw0rd!" }
      = Login testEnv storeBobAliceCarol { Email := str "A@x.com", Password := str "guess" }) ∧
    (Login testEnv storeBobAliceCarol { Email := str "A@x.com", Password := str "guess" }).response
      = Response.error 401 "Invalid credentials"
          (some { Kind := ErrorKind.authentication, StatusCode := 401,
                  Message := "Invalid credentials" }) :=
  ⟨(login_failures_indistinguishable testEnv storeBobAliceCarol
      { Email := str "zed@x.com", Password := str "Passw0rd!" }
      { Email := str "c@x.com", Password := str "Passw0rd!" }
      (LoginFailure.unknownEmail (by decide))
      (LoginFailure.noCredential
        { ID := 3, Username := str "carol", Email := str "c@x.com", Name := str "Carol",
          Role := str "user", GoogleID := some (str "1234567890"), PasswordLess := true }
        (by decide) (by decide))).1,
   (login_failures_indistinguishable testEnv storeBobAliceCarol
      { Email := str "c@x.com", Password := str "Passw0rd!" }
      { Email := str "A@x.com", Password := str "guess" }
      (LoginFailure.noCredential
        { ID := 3, Username := str "carol", Email := str "c@x.com", Name := str "Carol",
          Role := str "user", GoogleID := some (str "1234567890"), PasswordLess := true }
        (by decide) (by decide))
      (LoginFailure.wrongPassword
        { ID := 1, Username := str "bob", Email := str "a@x.com", Name := str "Bob",
          Role := str "user", GoogleID := none, PasswordLess := false }
        { ID := 1, UserID := 1, Password := str "$2a$Passw0rd!" }
        (by decide) (by decide) (by decide))).1,
   by decide⟩

/-! ## How the handlers change the store -/

theorem createProfile_cases (db : DB) (ioError : Bool) (row : ProfileUser) :
    (db.createProfile ioError row = ({ db with profileSeq := db.profileSeq + 1 }, none)) ∨
    (db.createProfile ioError row =
        ({ db with profileSeq := db.profileSeq + 1,
                   profiles := db.profiles ++ [{ row with ID := db.profileSeq + 1 }] },
         some { row with ID := db.profileSeq + 1 }) ∧
      ∀ p ∈ db.profiles, p.ID ≠ db.profileSeq + 1 ∧ p.Username ≠ row.Username ∧
        p.Email ≠ row.Email) := by
  unfold DB.createProfile
  simp only []
  split
  · exact Or.inl rfl
  · rename_i h
    refine Or.inr ⟨rfl, ?_⟩
    intro p hp
    simp only [Bool.or_eq_true, List.any_eq_true, not_or, not_exists, not_and] at h
    have := h.2 p hp
    simp only [Bool.or_eq_true, decide_eq_true_eq, not_or] at this
    exact ⟨this.1.1.1, this.1.1.2, this.1.2⟩

theorem createAuth_cases (db : DB) (ioError : Bool) (row : AuthUser) :
    (db.createAuth ioError row = ({ db with authSeq := db.authSeq + 1 }, none)) ∨
    (db.createAuth ioError row =
        ({ db with authSeq := db.authSeq + 1,
                   auths := db.auths ++ [{ row with ID := db.authSeq + 1 }] },
         some { row with ID := db.authSeq + 1 })) := by
  unfold DB.createAuth
  simp only []
  split
  · exact Or.inl rfl
  · exact Or.inr rfl

/-- Register either leaves both tables as they were, or appends one ProfileUser
(with the next ID, the normalized email and `PasswordLess = false`) and one
AuthUser that refers to it. -/
theorem register_db (env : Env) (faults : Faults) (db : DB) (req : RegisterRequest) :
    ((Register env faults db req).db.profiles = db.profiles ∧
      (Register env faults db req).db.auths = db.auths ∧
      db.profileSeq ≤ (Register env faults db req).db.profileSeq) ∨
    (∃ P A, (Register env faults db req).db.profiles = db.profiles ++ [P] ∧
      (Register env faults db req).db.auths = db.auths ++ [A] ∧
      (Register env faults db req).db.profileSeq = db.profileSeq + 1 ∧
      P.ID = db.profileSeq + 1 ∧ A.UserID = P.ID ∧ P.PasswordLess = false ∧
      P.Email = env.TrimAndLower req.Email ∧
      (∀ p ∈ db.profiles, p.Email ≠ env.TrimAndLower req.Email)) := by
  unfold Register
  simp only []
  cases hfirst : db.firstProfile (fun p =>
      decide (p.Email = env.TrimAndLower req.Email) || decide (p.Username = req.Username)) with
  | some existing => exact Or.inl ⟨rfl, rfl, Nat.le_refl _⟩
  | none =>
    have hnone := (firstProfile_none db _).mp hfirst
    cases env.GenerateFromPassword req.Password with
    | none => exact Or.inl ⟨rfl, rfl, Nat.le_refl _⟩
    | some hashed =>
      simp only [TransactionManager, registerTx]
      rcases createProfile_cases db faults.profile
        { ID := 0, Username := req.Username, Email := env.TrimAndLower req.Email,
          Name := req.FullName, Role := if req.Role = [] then str "user" else req.Role,
          GoogleID := none, PasswordLess := false } with hc | ⟨hc, -⟩
      · rw [hc]
        exact Or.inl ⟨rfl, rfl, Nat.le_succ _⟩
      · rw [hc]
        simp only []
        rcases createAuth_cases
          { db with profileSeq := db.profileSeq + 1,
                    profiles := db.profiles ++
                      [{ ID := db.profileSeq + 1, Username := req.Username,
                         Email := env.TrimAndLower req.Email, Name := req.FullName,
                         Role := if req.Role = [] then str "user" else req.Role,
                         GoogleID := none, PasswordLess := false }] }
          faults.auth { ID := 0, UserID := db.profileSeq + 1, Password := hashed } with ha | ha
        · rw [ha]
          exact Or.inl ⟨rfl, rfl, Nat.le_succ _⟩
        · rw [ha]
          simp only []
          rw [if_pos (Nat.succ_pos _)]
          refine Or.inr ⟨_, _, rfl, rfl, rfl, rfl, rfl, rfl, rfl, ?_⟩
          intro p hp
          have := hnone p hp
          simp only [Bool.or_eq_false_iff, decide_eq_false_iff_not] at this
          exact this.1

/-- GoogleOAuth either leaves both tables as they were, or appends one
ProfileUser with the next ID, the email and Google ID of the request and
`PasswordLess = true`, and no AuthUser; it does the latter only when no
ProfileUser had that Google ID or that ID. -/
theorem googleOAuth_db (env : Env) (ioError : Bool) (db : DB) (req : GoogleOAuthRequest) :
    ((GoogleOAuth env ioError db req).db.profiles = db.profiles ∧
      (GoogleOAuth env ioError db req).db.auths = db.auths ∧
      db.profileSeq ≤ (GoogleOAuth env ioError db req).db.profileSeq) ∨
    (∃ P, (GoogleOAuth env ioError db req).db.profiles = db.profiles ++ [P] ∧
      (GoogleOAuth env ioError db req).db.auths = db.auths ∧
      (GoogleOAuth env ioError db req).db.profileSeq = db.profileSeq + 1 ∧
      P.ID = db.profileSeq + 1 ∧ P.PasswordLess = true ∧ P.Email = req.Email ∧
      P.GoogleID = some req.GoogleID ∧
      (∀ p ∈ db.profiles, p.GoogleID ≠ some req.GoogleID ∧ p.ID ≠ db.profileSeq + 1)) := by
  unfold GoogleOAuth
  simp only []
  cases hfirst : db.firstProfile (fun p =>
      decide (p.Email = req.Email) || decide (p.GoogleID = some req.GoogleID)) with
  | some existing =>
    simp only [existingAccount]
    cases env.GenerateJWT existing.ID <;> exact Or.inl ⟨rfl, rfl, Nat.le_refl _⟩
  | none =>
    have hnone := (firstProfile_none db _).mp hfirst
    cases oauthUsername db req with
    | none => exact Or.inl ⟨rfl, rfl, Nat.le_refl _⟩
    | some username =>
      simp only []
      rcases createProfile_cases db ioError
        { ID := 0, Username := username, Email := req.Email, Name := req.Name,
          GoogleID := some req.GoogleID, Role := str "user", PasswordLess := true } with hc | ⟨hc, hu⟩
      · rw [hc]
        exact Or.inl ⟨rfl, rfl, Nat.le_succ _⟩
      · rw [hc]
        simp only []
        have hold : ∀ p ∈ db.profiles,
            p.GoogleID ≠ some req.GoogleID ∧ p.ID ≠ db.profileSeq + 1 := by
          intro p hp
          have := hnone p hp
          simp only [Bool.or_eq_false_iff, decide_eq_false_iff_not] at this
          exact ⟨this.2, (hu p hp).1⟩
        cases env.GenerateJWT (db.profileSeq + 1) <;>
          exact Or.inr ⟨_, rfl, rfl, rfl, rfl, rfl, rfl, rfl, hold⟩

theorem login_db (env : Env) (db : DB) (req : LoginRequest) : (Login env db req).db = db := by
  unfold Login
  simp only [invalidCredentials]
  split
  · rfl
  · split
    · rfl
    · split
      · rfl
      · split <;> rfl

/-! ## The credential invariant -/

theorem credentialCount_congr (db db1 : DB) (h : db1.auths = db.auths) (id : Nat) :
    credentialCount db1 id = credentialCount db id := by
  simp [credentialCount, h]

theorem credentialCount_eq_zero (db : DB) (id : Nat) (h : ∀ a ∈ db.auths, a.UserID ≠ id) :
    credentialCount db id = 0 := by
  unfold credentialCount
  rw [List.countP_eq_zero]
  intro a ha
  simpa using h a ha

theorem invariants_same_tables (db db1 : DB) (hp : db1.profiles = db.profiles)
    (ha : db1.auths = db.auths) (hs : db.profileSeq ≤ db1.profileSeq)
    (hids : IssuedIDs db) (hinv : CredentialInvariant db) :
    IssuedIDs db1 ∧ CredentialInvariant db1 := by
  constructor
  · constructor
    · intro p hp1
      rw [hp] at hp1
      exact Nat.le_trans (hids.1 p hp1) hs
    · intro a ha1
      rw [ha] at ha1
      exact Nat.le_trans (hids.2 a ha1) hs
  · intro p hp1
    rw [hp] at hp1
    rw [credentialCount_congr db db1 ha]
    exact hinv p hp1

theorem invariants_registered (db db1 : DB) (P : ProfileUser) (A : AuthUser)
    (hp : db1.profiles = db.profiles ++ [P]) (ha : db1.auths = db.auths ++ [A])
    (hs : db1.profileSeq = db.profileSeq + 1) (hid : P.ID = db.profileSeq + 1)
    (hA : A.UserID = P.ID) (hpl : P.PasswordLess = false)
    (hids : IssuedIDs db) (hinv : CredentialInvariant db) :
    IssuedIDs db1 ∧ CredentialInvariant db1 := by
  constructor
  · constructor
    · intro p hp1
      rw [hp, List.mem_append, List.mem_singleton] at hp1
      rcases hp1 with h | h
      · have := hids.1 p h; omega
      · subst h; omega
    · intro a ha1
      rw [ha, List.mem_append, List.mem_singleton] at ha1
      rcases ha1 with h | h
      · have := hids.2 a h; omega
      · subst h; omega
  · intro p hp1
    have hcount : credentialCount db1 p.ID
        = credentialCount db p.ID + (if A.UserID = p.ID then 1 else 0) := by
      unfold credentialCount
      rw [ha, List.countP_append]
      by_cases h : A.UserID = p.ID <;> simp [List.countP_cons, h]
    rw [hcount]
    rw [hp, List.mem_append, List.mem_singleton] at hp1
    rcases hp1 with h | h
    · have hle := hids.1 p h
      have hne : A.UserID ≠ p.ID := by omega
      rw [if_neg hne, Nat.add_zero]
      exact hinv p h
    · subst h
      have hz : credentialCount db p.ID = 0 := by
        apply credentialCount_eq_zero
        intro a ha1
        have := hids.2 a ha1
        omega
      rw [hz, if_pos hA, hpl]
      rfl

theorem invariants_federated (db db1 : DB) (P : ProfileUser)
    (hp : db1.profiles = db.profiles ++ [P]) (ha : db1.auths = db.auths)
    (hs : db1.profileSeq = db.profileSeq + 1) (hid : P.ID = db.profileSeq + 1)
    (hpl : P.PasswordLess = true)
    (hids : IssuedIDs db) (hinv : CredentialInvariant db) :
    IssuedIDs db1 ∧ CredentialInvariant db1 := by
  constructor
  · constructor
    · intro p hp1
      rw [hp, List.mem_append, List.mem_singleton] at hp1
      rcases hp1 with h | h
      · have := hids.1 p h; omega
      · subst h; omega
    · intro a ha1
      rw [ha] at ha1
      have := hids.2 a ha1
      omega
  · intro p hp1
    rw [credentialCount_congr db db1 ha]
    rw [hp, List.mem_append, List.mem_singleton] at hp1
    rcases hp1 with h | h
    · exact hinv p h
    · subst h
      rw [hpl]
      apply credentialCount_eq_zero
      intro a ha1
      have := hids.2 a ha1
      omega

/-- C7, as stated, fails. The store `storeStrayCredential` satisfies the
predicate (it has no ProfileUser), yet its AuthUser refers to ID 1, which no
ProfileUser has and the sequence has not handed out; nothing in the schema
forbids it. The GoogleOAuth call of carol creates the passwordless ProfileUser
with ID 1, which then has one AuthUser: the predicate is broken. -/
theorem credential_invariant_counterexample :
    CredentialInvariant storeStrayCredential ∧
    (GoogleOAuth testEnv false storeStrayCredential oauthCarol).db.profiles =
      [{ ID := 1, Username := str "carol", Email := str "c@x.com", Name := str "Carol",
         Role := str "user", GoogleID := some (str "1234567890"), PasswordLess := true }] ∧
    credentialCount (GoogleOAuth testEnv false storeStrayCredential oauthCarol).db 1 = 1 ∧
    ¬ CredentialInvariant (GoogleOAuth testEnv false storeStrayCredential oauthCarol).db := by
  decide

/-- C7, amended. The predicate "a ProfileUser with PasswordLess = false has
exactly one AuthUser whose UserID is its ID, and one with PasswordLess = true
has none" is preserved by every operation from a store whose IDs were all
handed out by the sequence of `profile_users` (the ID of every ProfileUser and
the UserID of every AuthUser is at most its last value): from such a store that
satisfies the predicate, the store after any Register call (whatever its
outcome and whatever I/O error hits either insert of the transaction), after
any GoogleOAuth call and after any Login call is again such a store and
satisfies the predicate. Both hold of the empty store. -/
theorem credential_invariant_preserved (env : Env) (db : DB)
    (hids : IssuedIDs db) (hinv : CredentialInvariant db) :
    (∀ faults req, IssuedIDs (Register env faults db req).db ∧
        CredentialInvariant (Register env faults db req).db) ∧
    (∀ ioError req, IssuedIDs (GoogleOAuth env ioError db req).db ∧
        CredentialInvariant (GoogleOAuth env ioError db req).db) ∧
    (∀ req, (Login env db req).db = db) ∧
    (IssuedIDs emptyDB ∧ CredentialInvariant emptyDB) := by
  refine ⟨?_, ?_, fun req => login_db env db req, by decide⟩
  · intro faults req
    rcases register_db env faults db req with ⟨hp, ha, hs⟩ | ⟨P, A, hp, ha, hs, hid, hA, hpl, -, -⟩
    · exact invariants_same_tables db _ hp ha hs hids hinv
    · exact invariants_registered db _ P A hp ha hs hid hA hpl hids hinv
  · intro ioError req
    rcases googleOAuth_db env ioError db req with ⟨hp, ha, hs⟩ | ⟨P, hp, ha, hs, hid, hpl, -, -⟩
    · exact invariants_same_tables db _ hp ha hs hids hinv
    · exact invariants_federated db _ P hp ha hs hid hpl hids hinv

/-- C7 (amended) at a registration of dave whose AuthUser insert fails (both tables stay
as they were) and at the same registration without I/O error. -/
theorem credential_invariant_preserved_witness :
    IssuedIDs storeBobAliceCarol ∧ CredentialInvariant storeBobAliceCarol ∧
    (Register testEnv { profile := false, auth := true } storeBobAliceCarol regDave).db.profiles
      = storeBobAliceCarol.profiles ∧
    CredentialInvariant
      (Register testEnv { profile := false, auth := true } storeBobAliceCarol regDave).db ∧
    (Register testEnv noFaults storeBobAliceCarol regDave).db.profiles.length = 4 ∧
    CredentialInvariant (Register testEnv noFaults storeBobAliceCarol regDave).db :=
  ⟨by decide, by decide, by decide,
    ((credential_invariant_preserved testEnv storeBobAliceCarol (by decide) (by decide)).1
      { profile := false, auth := true } regDave).2,
    by decide,
    ((credential_invariant_preserved testEnv storeBobAliceCarol (by decide) (by decide)).1
      noFaults regDave).2⟩

/-- Every store the handlers reach from the empty store satisfies the
credential predicate. -/
theorem reachable_credential_invariant (env : Env) (ops : List Op) :
    IssuedIDs (runOps env emptyDB ops) ∧ CredentialInvariant (runOps env emptyDB ops) := by
  have step : ∀ (db : DB) (op : Op), IssuedIDs db → CredentialInvariant db →
      IssuedIDs (handle env db op).db ∧ CredentialInvariant (handle env db op).db := by
    intro db op hids hinv
    cases op with
    | register faults req =>
      simp only [handle]
      rcases register_db env faults db req with ⟨hp, ha, hs⟩ | ⟨P, A, hp, ha, hs, hid, hA, hpl, -, -⟩
      · exact invariants_same_tables db _ hp ha hs hids hinv
      · exact invariants_registered db _ P A hp ha hs hid hA hpl hids hinv
    | login req =>
      simp only [handle, login_db]
      exact ⟨hids, hinv⟩
    | googleOAuth ioError req =>
      simp only [handle]
      rcases googleOAuth_db env ioError db req with ⟨hp, ha, hs⟩ | ⟨P, hp, ha, hs, hid, hpl, -, -⟩
      · exact invariants_same_tables db _ hp ha hs hids hinv
      · exact invariants_federated db _ P hp ha hs hid hpl hids hinv
  have all : ∀ (ops : List Op) (db : DB), IssuedIDs db → CredentialInvariant db →
      IssuedIDs (runOps env db ops) ∧ CredentialInvariant (runOps env db ops) := by
    intro ops
    induction ops with
    | nil => intro db hids hinv; exact ⟨hids, hinv⟩
    | cons op ops ih =>
      intro db hids hinv
      have h := step db op hids hinv
      have hrun : runOps env db (op :: ops) = runOps env (handle env db op).db ops := by
        simp [runOps]
      rw [hrun]
      exact ih _ h.1 h.2
  exact all ops emptyDB (by decide) (by decide)

/-! ## GoogleOAuth: the existing-account path -/

theorem handle_profiles (env : Env) (db : DB) (op : Op) :
    ∃ extra, (handle env db op).db.profiles = db.profiles ++ extra ∧
      (∀ q ∈ extra, db.profileSeq < q.ID) ∧ db.profileSeq ≤ (handle env db op).db.profileSeq := by
  cases op with
  | register faults req =>
    simp only [handle]
    rcases register_db env faults db req with ⟨hp, -, hs⟩ | ⟨P, A, hp, -, hs, hid, -⟩
    · exact ⟨[], by simp [hp], by simp, hs⟩
    · refine ⟨[P], hp, ?_, by omega⟩
      intro q hq
      rw [List.mem_singleton] at hq
      subst hq
      omega
  | login req =>
    simp only [handle, login_db]
    exact ⟨[], by simp, by simp, Nat.le_refl _⟩
  | googleOAuth ioError req =>
    simp only [handle]
    rcases googleOAuth_db env ioError db req with ⟨hp, -, hs⟩ | ⟨P, hp, -, hs, hid, -⟩
    · exact ⟨[], by simp [hp], by simp, hs⟩
    · refine ⟨[P], hp, ?_, by omega⟩
      intro q hq
      rw [List.mem_singleton] at hq
      subst hq
      omega

/-- Requests only append ProfileUsers, and with IDs above the sequence value
they started from. -/
theorem runOps_profiles (env : Env) (ops : List Op) :
    ∀ db : DB, ∃ extra, (runOps env db ops).profiles = db.profiles ++ extra ∧
      (∀ q ∈ extra, db.profileSeq < q.ID) := by
  induction ops with
  | nil => intro db; exact ⟨[], by simp [runOps], by simp⟩
  | cons op ops ih =>
    intro db
    obtain ⟨e1, h1, hid1, hs1⟩ := handle_profiles env db op
    obtain ⟨e2, h2, hid2⟩ := ih (handle env db op).db
    refine ⟨e1 ++ e2, ?_, ?_⟩
    · have : runOps env db (op :: ops) = runOps env (handle env db op).db ops := by
        simp [runOps]
      rw [this, h2, h1, List.append_assoc]
    · intro q hq
      rcases List.mem_append.mp hq with h | h
      · exact hid1 q h
      · exact Nat.lt_of_le_of_lt hs1 (hid2 q h)

theorem existingAccount_db (env : Env) (db : DB) (Q : ProfileUser) :
    (existingAccount env db Q).db = db := by
  unfold existingAccount
  cases env.GenerateJWT Q.ID <;> rfl

/-- C6, as stated, fails. In the store where bob is registered (ID 1, a@x.com),
a GoogleOAuth call with external id 1234567890 and email c@x.com creates carol
(ID 2); a later call with the same external id but email a@x.com answers with
the login outcome for bob, the lower-ID row matching the email, not for carol. -/
theorem googleOAuth_same_id_counterexample :
    GoogleOAuth testEnv false storeBob oauthCarol =
      { db := storeBobCarol,
        response := Response.success "Google OAuth registration successful" (str "jwt2")
          (some { ID := 2, Username := str "carol", Email := str "c@x.com", Name := str "Carol",
                  Role := str "user", GoogleID := some (str "1234567890"), PasswordLess := true }),
        cookie := none } ∧
    GoogleOAuth testEnv false storeBobCarol { oauthCarol with Email := str "a@x.com" } =
      { db := storeBobCarol,
        response := Response.success "Google OAuth login successful" (str "jwt1")
          (some { ID := 1, Username := str "bob", Email := str "a@x.com", Name := str "Bob",
                  Role := str "user", GoogleID := none, PasswordLess := false }),
        cookie := none } := by
  decide

/-- C6, amended. If a GoogleOAuth call with external id g created a new
identity P, then after any further requests every GoogleOAuth call carrying g
(whatever email and username it carries) takes the existing-account path and
leaves the store unchanged: it answers for a ProfileUser whose email is the
request's email or whose GoogleID is g and whose ID is lowest among all such
ProfileUsers. That is P whenever no ProfileUser
with an ID below the ID of P has the request's email, and then, the token being
issued, the call returns P with the login outcome. -/
theorem googleOAuth_existing_account (env : Env) (ioError : Bool) (db : DB)
    (req : GoogleOAuthRequest) (P : ProfileUser)
    (hcreated : (GoogleOAuth env ioError db req).db.profiles = db.profiles ++ [P])
    (ops : List Op) (ioError2 : Bool) (req2 : GoogleOAuthRequest)
    (hg : req2.GoogleID = req.GoogleID) :
    (∃ Q ∈ (runOps env (GoogleOAuth env ioError db req).db ops).profiles, Q.ID ≤ P.ID ∧
        (Q.Email = req2.Email ∨ Q.GoogleID = some req2.GoogleID) ∧
        (∀ q ∈ (runOps env (GoogleOAuth env ioError db req).db ops).profiles,
            (q.Email = req2.Email ∨ q.GoogleID = some req2.GoogleID) → Q.ID ≤ q.ID) ∧
        GoogleOAuth env ioError2 (runOps env (GoogleOAuth env ioError db req).db ops) req2
          = existingAccount env (runOps env (GoogleOAuth env ioError db req).db ops) Q) ∧
    (GoogleOAuth env ioError2 (runOps env (GoogleOAuth env ioError db req).db ops) req2).db
      = runOps env (GoogleOAuth env ioError db req).db ops ∧
    ((∀ q ∈ (runOps env (GoogleOAuth env ioError db req).db ops).profiles,
          q.ID < P.ID → q.Email ≠ req2.Email) →
        GoogleOAuth env ioError2 (runOps env (GoogleOAuth env ioError db req).db ops) req2
            = existingAccount env (runOps env (GoogleOAuth env ioError db req).db ops) P ∧
        ∀ tok, env.GenerateJWT P.ID = some tok →
          GoogleOAuth env ioError2 (runOps env (GoogleOAuth env ioError db req).db ops) req2 =
            { db := runOps env (GoogleOAuth env ioError db req).db ops,
              response := Response.success "Google OAuth login successful" tok (some P),
              cookie := none }) := by
  have hfacts : (GoogleOAuth env ioError db req).db.profileSeq = P.ID ∧
      P.GoogleID = some req.GoogleID ∧
      ∀ p ∈ db.profiles, p.GoogleID ≠ some req.GoogleID ∧ p.ID ≠ P.ID := by
    rcases googleOAuth_db env ioError db req with ⟨hp, -, -⟩ | ⟨Q, hp, -, hs, hid, -, -, hQg, hold⟩
    · rw [hp] at hcreated
      have := congrArg List.length hcreated
      simp at this
    · rw [hp] at hcreated
      have hQ : Q = P := by
        have := List.append_cancel_left hcreated
        simpa using this
      subst hQ
      exact ⟨by rw [hs, hid], hQg, by rw [hid]; exact hold⟩
  obtain ⟨hseq, hPg, hold⟩ := hfacts
  generalize (GoogleOAuth env ioError db req).db = db1 at hcreated hseq ⊢
  obtain ⟨extra, hp2, hex⟩ := runOps_profiles env ops db1
  rw [hcreated] at hp2
  rw [hseq] at hex
  have hPmem : P ∈ (runOps env db1 ops).profiles := by
    rw [hp2]; simp
  have hPcond : (fun p : ProfileUser =>
      decide (p.Email = req2.Email) || decide (p.GoogleID = some req2.GoogleID)) P = true := by
    simp [hPg, hg]
  obtain ⟨m, hm⟩ := firstProfile_exists (runOps env db1 ops)
    (fun p => decide (p.Email = req2.Email) || decide (p.GoogleID = some req2.GoogleID))
    P hPmem hPcond
  obtain ⟨hmem, hcond, hmin⟩ := firstProfile_some (runOps env db1 ops) _ m hm
  have hle : m.ID ≤ P.ID := hmin P hPmem hPcond
  have hrun : GoogleOAuth env ioError2 (runOps env db1 ops) req2
      = existingAccount env (runOps env db1 ops) m := by
    simp only [GoogleOAuth, hm]
  have hcond2 : m.Email = req2.Email ∨ m.GoogleID = some req2.GoogleID := by
    simpa using hcond
  have hlowest : ∀ q ∈ (runOps env db1 ops).profiles,
      (q.Email = req2.Email ∨ q.GoogleID = some req2.GoogleID) → m.ID ≤ q.ID := by
    intro q hq hqc
    exact hmin q hq (by simpa using hqc)
  refine ⟨⟨m, hmem, hle, hcond2, hlowest, hrun⟩, ?_, ?_⟩
  · rw [hrun, existingAccount_db]
  · intro hemail
    have hmP : m = P := by
      rw [hp2, List.append_assoc, List.mem_append] at hmem
      rcases hmem with h | h
      · exfalso
        have hne := (hold m h).2
        have hlt : m.ID < P.ID := by omega
        rcases hcond2 with he | hgid
        · exact hemail m (by rw [hp2]; simp [h]) hlt he
        · rw [hg] at hgid
          exact (hold m h).1 hgid
      · rcases List.mem_append.mp h with h | h
        · exact List.mem_singleton.mp h
        · exfalso
          have := hex m h
          omega
    rw [hmP] at hrun
    refine ⟨hrun, ?_⟩
    intro tok htok
    rw [hrun]
    simp only [existingAccount, htok]

/-- C6 (amended) at carol: after dave registered, a sign-in with her external id
and another email and username is answered with the login outcome for carol. -/
theorem googleOAuth_existing_account_witness :
    (GoogleOAuth testEnv false storeBob oauthCarol).db.profiles = storeBob.profiles ++
      [{ ID := 2, Username := str "carol", Email := str "c@x.com", Name := str "Carol",
         Role := str "user", GoogleID := some (str "1234567890"), PasswordLess := true }] ∧
    GoogleOAuth testEnv false
        (runOps testEnv (GoogleOAuth testEnv false storeBob oauthCarol).db
          [Op.register noFaults regDave])
        { oauthCarol with Email := str "new@x.com", Username := str "caz" } =
      { db := runOps testEnv (GoogleOAuth testEnv false storeBob oauthCarol).db
          [Op.register noFaults regDave],
        response := Response.success "Google OAuth login successful" (str "jwt2")
          (some { ID := 2, Username := str "carol", Email := str "c@x.com", Name := str "Carol",
                  Role := str "user", GoogleID := some (str "1234567890"), PasswordLess := true }),
        cookie := none } :=
  ⟨by decide,
   ((googleOAuth_existing_account testEnv false storeBob oauthCarol
      { ID := 2, Username := str "carol", Email := str "c@x.com", Name := str "Carol",
        Role := str "user", GoogleID := some (str "1234567890"), PasswordLess := true }
      (by decide) [Op.register noFaults regDave] false
      { oauthCarol with Email := str "new@x.com", Username := str "caz" } rfl).2.2
    (by decide)).2 (str "jwt2") (by decide)⟩

/-! ## GoogleOAuth: username collision and email normalization -/

/-- C5, evaluated where the code departs from it. (1) In the store where bob is
registered, a sign-in that matches no ProfileUser, suggests the username bob
and carries the external id "abc" ends in a panic: `req.GoogleID[:8]` is out
of range. (2) After `oauthBobFirst` was given the username bob_12345678, the
sign-in `oauthBobSecond` (another email and external id, again suggesting bob)
derives the same username, which an existing ProfileUser holds; the insert
violates the unique constraint and the call answers 500 "Failed to create
user" without creating an identity. -/
theorem googleOAuth_username_collision_failures :
    ((∀ p ∈ storeBob.profiles,
        p.Email ≠ oauthShortID.Email ∧ p.GoogleID ≠ some oauthShortID.GoogleID) ∧
      (∃ p ∈ storeBob.profiles, p.Username = oauthShortID.Username) ∧
      oauthShortID.GoogleID ≠ [] ∧
      GoogleOAuth testEnv false storeBob oauthShortID =
        { db := storeBob, response := Response.panic, cookie := none }) ∧
    ((∀ p ∈ storeBobFirst.profiles,
        p.Email ≠ oauthBobSecond.Email ∧ p.GoogleID ≠ some oauthBobSecond.GoogleID) ∧
      (∃ p ∈ storeBobFirst.profiles, p.Username = oauthBobSecond.Username) ∧
      oauthUsername storeBobFirst oauthBobSecond = some (str "bob_12345678") ∧
      (∃ p ∈ storeBobFirst.profiles, p.Username = str "bob_12345678") ∧
      (GoogleOAuth testEnv false storeBobFirst oauthBobSecond).response =
        Response.error 500 "Failed to create user" none ∧
      (GoogleOAuth testEnv false storeBobFirst oauthBobSecond).db.profiles
        = storeBobFirst.profiles) := by
  decide

/-- What the collision branch does achieve: when the external id has at least
eight bytes, the derived username is free, the IDs in use were handed out by the
sequence and the insert meets no I/O error, GoogleOAuth creates the identity
under the suggested username followed by "_" and the first eight bytes of the
external id. -/
theorem googleOAuth_derived_username (env : Env) (db : DB) (req : GoogleOAuthRequest)
    (hids : ∀ p ∈ db.profiles, p.ID ≤ db.profileSeq)
    (hnew : ∀ p ∈ db.profiles, p.Email ≠ req.Email ∧ p.GoogleID ≠ some req.GoogleID)
    (htaken : ∃ p ∈ db.profiles, p.Username = req.Username)
    (hlen : 8 ≤ req.GoogleID.length)
    (hfree : ∀ p ∈ db.profiles, p.Username ≠ req.Username ++ str "_" ++ req.GoogleID.take 8) :
    (GoogleOAuth env false db req).db.profiles = db.profiles ++
      [{ ID := db.profileSeq + 1, Username := req.Username ++ str "_" ++ req.GoogleID.take 8,
         Email := req.Email, Name := req.Name, Role := str "user",
         GoogleID := some req.GoogleID, PasswordLess := true }] := by
  have hfirst : db.firstProfile (fun p =>
      decide (p.Email = req.Email) || decide (p.GoogleID = some req.GoogleID)) = none := by
    rw [firstProfile_none]
    intro p hp
    simp [(hnew p hp).1, (hnew p hp).2]
  obtain ⟨q, hq, hqu⟩ := htaken
  obtain ⟨m, hm⟩ := firstProfile_exists db (fun p => decide (p.Username = req.Username)) q hq
    (by simp [hqu])
  have huser : oauthUsername db req
      = some (req.Username ++ str "_" ++ req.GoogleID.take 8) := by
    simp only [oauthUsername, hm, slicePrefix, if_neg (Nat.not_lt.mpr hlen)]
  rcases createProfile_cases db false
    { ID := 0, Username := req.Username ++ str "_" ++ req.GoogleID.take 8, Email := req.Email,
      Name := req.Name, GoogleID := some req.GoogleID, Role := str "user",
      PasswordLess := true } with hc | ⟨hc, -⟩
  · exfalso
    have hany : db.profiles.any (fun p =>
        decide (p.ID = db.profileSeq + 1)
          || decide (p.Username = req.Username ++ str "_" ++ req.GoogleID.take 8)
          || decide (p.Email = req.Email)
          || ((some req.GoogleID).isSome && decide (p.GoogleID = some req.GoogleID)))
        = false := by
      rw [List.any_eq_false]
      intro p hp
      have h1 : p.ID ≠ db.profileSeq + 1 := by have := hids p hp; omega
      have h2 := hfree p hp
      simp only [List.append_assoc] at h2
      simp [h1, h2, (hnew p hp).1, (hnew p hp).2]
    simp only [DB.createProfile, Bool.false_or, hany] at hc
    simp at hc
  · simp only [GoogleOAuth, hfirst, huser, hc]
    cases env.GenerateJWT (db.profileSeq + 1) <;> rfl

/-- C8, evaluated where the code departs from it. In the store where bob is
registered with email a@x.com (a store that satisfies the email predicate), the
sign-in `oauthUpper` with email A@x.com is answered as a registration: the
ProfileUser written carries the email as sent, not its trimmed, lower-cased
form, and its normalized email is that of bob; the store afterwards violates
the predicate. -/
theorem googleOAuth_email_not_normalized :
    EmailInvariant testEnv storeBob ∧
    (GoogleOAuth testEnv false storeBob oauthUpper).response =
      Response.success "Google OAuth registration successful" (str "jwt2")
        (some { ID := 2, Username := str "al", Email := str "A@x.com", Name := str "Al",
                Role := str "user", GoogleID := some (str "1234567890"), PasswordLess := true }) ∧
    testEnv.TrimAndLower (str "A@x.com") = str "a@x.com" ∧
    (GoogleOAuth testEnv false storeBob oauthUpper).db.profiles.map (fun p => p.Email)
      = [str "a@x.com", str "A@x.com"] ∧
    ¬ EmailInvariant testEnv (GoogleOAuth testEnv false storeBob oauthUpper).db := by
  decide

/-- The sibling path: Register keeps the email predicate, for any `TrimAndLower`
that is idempotent. -/
theorem register_email_invariant (env : Env) (faults : Faults) (db : DB) (req : RegisterRequest)
    (hidem : ∀ s, env.TrimAndLower (env.TrimAndLower s) = env.TrimAndLower s)
    (h : EmailInvariant env db) :
    EmailInvariant env (Register env faults db req).db := by
  rcases register_db env faults db req with ⟨hp, -, -⟩ | ⟨P, A, hp, -, -, -, -, -, hPe, hno⟩
  · unfold EmailInvariant
    rw [hp]
    exact h
  · unfold EmailInvariant
    rw [hp]
    constructor
    · intro p hp1
      rcases List.mem_append.mp hp1 with hmem | hmem
      · exact h.1 p hmem
      · rw [List.mem_singleton.mp hmem, hPe, hidem]
    · rw [List.pairwise_append]
      refine ⟨h.2, List.pairwise_singleton _ _, ?_⟩
      intro a ha b hb
      rw [List.mem_singleton.mp hb, hPe, hidem, h.1 a ha]
      exact hno a ha

end Trackle
